import Mathlib

/-!
A shallow embedding of the mermaid-preserving renderer content script:
the platform detector (`detector.ts`), the transform engine (`renderer.ts`),
the toggle widget (`toggle.ts`) and the error formatter (`errorHandler.ts`),
together with proofs of the specified properties.

Text is modelled as `List Char` (one entry per UTF-16-ish code point); DOM
trees as a mutual inductive of element nodes and child lists.  The external
renderer service is an oracle parameter returning either parsed markup or an
opaque failure value.
-/

/-! ## JS string primitives -/

/-- The character class of the JS regex `\s` (also the set `String.prototype.trim`
removes): tab, LF, VT, FF, CR, space, NBSP, Ogham space, the U+2000..U+200A
range, LS, PS, NNBSP, MMSP, ideographic space and the BOM. -/
def isJsWs (c : Char) : Bool :=
  decide (c.toNat = 9 ∨ c.toNat = 10 ∨ c.toNat = 11 ∨ c.toNat = 12 ∨ c.toNat = 13 ∨
    c.toNat = 32 ∨ c.toNat = 160 ∨ c.toNat = 5760 ∨
    (8192 ≤ c.toNat ∧ c.toNat ≤ 8202) ∨ c.toNat = 8232 ∨ c.toNat = 8233 ∨
    c.toNat = 8239 ∨ c.toNat = 8287 ∨ c.toNat = 12288 ∨ c.toNat = 65279)

/-- ASCII branch of `String.prototype.toLowerCase` (the keyword vocabulary and
the label literal are pure ASCII). -/
def jsToLowerChar (c : Char) : Char :=
  if 65 ≤ c.toNat ∧ c.toNat ≤ 90 then Char.ofNat (c.toNat + 32) else c

/-- ASCII upper-casing, used to state case-insensitivity. -/
def jsToUpperChar (c : Char) : Char :=
  if 97 ≤ c.toNat ∧ c.toNat ≤ 122 then Char.ofNat (c.toNat - 32) else c

def jsToLowerStr (l : List Char) : List Char := l.map jsToLowerChar

def jsTrimStart (l : List Char) : List Char := l.dropWhile isJsWs

def jsTrimEnd (l : List Char) : List Char := (l.reverse.dropWhile isJsWs).reverse

/-- `String.prototype.trim`. -/
def jsTrim (l : List Char) : List Char := jsTrimEnd (jsTrimStart l)

/-- Helper for `jsSplitWs`: prepend a character to the first field. -/
def splitHeadCons (c : Char) : List (List Char) → List (List Char)
  | [] => [[c]]
  | h :: r => (c :: h) :: r

/-- `str.split(/[\s\n]/)`: split at every single whitespace character; adjacent
separators produce empty fields and the result is never empty. -/
def jsSplitWs : List Char → List (List Char)
  | [] => [[]]
  | c :: t => if isJsWs c then [] :: jsSplitWs t else splitHeadCons c (jsSplitWs t)

/-- `hay.includes(sub)`: substring containment. -/
def jsIncludes (hay sub : List Char) : Bool := decide (sub <:+: hay)

/-! ## detector.ts: content classification -/

/-- The fixed diagram-keyword vocabulary `MERMAID_KEYWORDS` of detector.ts. -/
def MERMAID_KEYWORDS : List (List Char) :=
  ["graph".data, "flowchart".data, "sequencediagram".data, "classdiagram".data,
   "statediagram".data, "statediagram-v2".data, "erdiagram".data, "journey".data,
   "gantt".data, "pie".data, "quadrantchart".data, "requirementdiagram".data,
   "gitgraph".data, "mindmap".data, "timeline".data, "zenuml".data,
   "sankey-beta".data, "xychart-beta".data, "block-beta".data]

/-- `isMermaidContent` of detector.ts: trim, lower-case, take the first
whitespace-delimited field, test membership in the keyword vocabulary. -/
def isMermaidContent (content : List Char) : Bool :=
  let trimmed := jsToLowerStr (jsTrim content)
  let firstWord := (jsSplitWs trimmed).headD []
  MERMAID_KEYWORDS.contains firstWord

/-! ## detector.ts: platform identification -/

inductive Platform where
  | chatgpt
  | claude
  | gemini
  | grok
deriving DecidableEq

/-- Modelled from the spec: `config/selectors.json` is not among the repository
source files (only the detector that loads it is).  The registry rows and
their order are reconstructed from the spec's Platform Registry contract and
the hostnames the repository's unit tests pin
(`chatgpt.com`, `claude.ai`, `gemini.google.com`, `grok.com`). -/
def platformEntries : List (Platform × List Char) :=
  [(.chatgpt, "chatgpt.com".data), (.claude, "claude.ai".data),
   (.gemini, "gemini.google.com".data), (.grok, "grok.com".data)]

/-- `detectPlatform` of detector.ts: iterate the registry in order and return
the first platform whose `hostname` field the page hostname contains. -/
def detectPlatform (hostname : List Char) : Option Platform :=
  (platformEntries.find? (fun e => jsIncludes hostname e.2)).map (fun e => e.1)

/-- The match substring of each registry row (spec: `hostnameMatch`). -/
def hostnameMatch : Platform → List Char
  | .chatgpt => "chatgpt.com".data
  | .claude => "claude.ai".data
  | .gemini => "gemini.google.com".data
  | .grok => "grok.com".data

/-- Position of each platform's row in the registry. -/
def registryIndex : Platform → Nat
  | .chatgpt => 0
  | .claude => 1
  | .gemini => 2
  | .grok => 3

/-! ## DOM model -/

/-- The data an element node carries directly: tag, `classList`, attributes and
the inline `style.display` value (`none` meaning the style is untouched). -/
structure ElemData where
  tag : String
  classes : List String
  attrs : List (String × String)
  display : Option String
deriving DecidableEq

mutual
inductive Dom where
  | elem : ElemData → DomList → Dom
  | text : List Char → Dom
deriving DecidableEq
inductive DomList where
  | nil : DomList
  | cons : Dom → DomList → DomList
deriving DecidableEq
end

mutual
def textContentD : Dom → List Char
  | .elem _ cs => textContentL cs
  | .text s => s
def textContentL : DomList → List Char
  | .nil => []
  | .cons d rest => textContentD d ++ textContentL rest
end

/-- An element as a scan sees it: its own data, its child list and the data of
its ancestors (nearest first). -/
abbrev Ctx := ElemData × DomList × List ElemData

mutual
/-- Pre-order (document-order) traversal collecting every element with its
ancestor chain. -/
def collectD : Dom → List ElemData → List Ctx
  | .text _, _ => []
  | .elem d cs, anc => (d, cs, anc) :: collectL cs (d :: anc)
def collectL : DomList → List ElemData → List Ctx
  | .nil, _ => []
  | .cons c rest, anc => collectD c anc ++ collectL rest anc
end

mutual
/-- `querySelector` within a subtree: first element in document order whose
own data satisfies the predicate. -/
def queryFirstD (p : ElemData → Bool) : Dom → Option (ElemData × DomList)
  | .text _ => none
  | .elem d cs => if p d then some (d, cs) else queryFirstL p cs
def queryFirstL (p : ElemData → Bool) : DomList → Option (ElemData × DomList)
  | .nil => none
  | .cons c rest =>
    match queryFirstD p c with
    | some r => some r
    | none => queryFirstL p rest
end

def attrVal (d : ElemData) (k : String) : Option String :=
  (d.attrs.find? (fun a => a.1 == k)).map (fun a => a.2)

/-- Whether an element matches the selector `[data-mpr-processed="true"]`. -/
def processedMarked (d : ElemData) : Bool :=
  attrVal d "data-mpr-processed" == some "true"

/-- `el.closest('[data-mpr-processed="true"]') !== null`: the element itself or
one of its ancestors carries the processed marker. -/
def closestProcessedMarked (d : ElemData) (anc : List ElemData) : Bool :=
  (d :: anc).any processedMarked

/-- `el.hasAttribute('data-mpr-processed')`: any value counts. -/
def hasProcessedAttr (d : ElemData) : Bool :=
  (attrVal d "data-mpr-processed").isSome

/-! ## detector.ts: block discovery -/

inductive Detection where
  | className
  | languageLabel
  | contentBased
deriving DecidableEq

/-- `PlatformConfig` of detector.ts.  The selector strings come from the
external JSON registry and are arbitrary CSS, so each selector field is
embedded as the predicate the browser's selector engine computes for it
(given an element's own data and its ancestor chain). -/
structure PlatformConfig where
  platform : Platform
  detection : Detection
  codeBlockSel : ElemData → List ElemData → Bool
  wrapperSel : ElemData → List ElemData → Bool
  languageLabelSel : ElemData → Bool

/-- `document.querySelectorAll(sel)` with the per-element contexts kept. -/
def querySelectorAllCtx (p : ElemData → List ElemData → Bool) (doc : Dom) : List Ctx :=
  (collectD doc []).filter (fun x => p x.1 x.2.2)

/-- The grok branch's label test: the wrapper's label child's trimmed
lower-cased text equals the literal diagram-language name. -/
def labelTextIsMermaid (config : PlatformConfig) (x : Ctx) : Bool :=
  match queryFirstL config.languageLabelSel x.2.1 with
  | some lr => jsToLowerStr (jsTrim (textContentL lr.2)) == "mermaid".data
  | none => false

/-- `findUnprocessedMermaidBlocks` of detector.ts: one branch per detection
strategy, each filtering out elements whose closest processed-marked
ancestor-or-self exists. -/
def findUnprocessedMermaidBlocks (config : PlatformConfig) (doc : Dom) : List Ctx :=
  match config.detection with
  | .className =>
      (querySelectorAllCtx config.codeBlockSel doc).filter
        (fun x => ! closestProcessedMarked x.1 x.2.2)
  | .contentBased =>
      (querySelectorAllCtx config.codeBlockSel doc).filter
        (fun x =>
          if closestProcessedMarked x.1 x.2.2 then false
          else isMermaidContent (textContentL x.2.1))
  | .languageLabel =>
      (querySelectorAllCtx config.wrapperSel doc).filter
        (fun x =>
          if hasProcessedAttr x.1 then false
          else if closestProcessedMarked x.1 x.2.2 then false
          else labelTextIsMermaid config x)

/-! ## errorHandler.ts -/

/-- A JS `unknown` thrown value as `errorToString` distinguishes them:
an `Error` instance (carrying `.message`), `null`, `undefined`, or anything
else via `String(error)`. -/
inductive JsError where
  | jsError : String → JsError
  | nullVal : JsError
  | undefinedVal : JsError
  | otherVal : String → JsError
deriving DecidableEq

def errorToString : JsError → String
  | .jsError m => m
  | .nullVal => "null"
  | .undefinedVal => "undefined"
  | .otherVal s => s

structure ParsedError where
  userMessage : String
  details : Option String
  originalError : String
deriving DecidableEq

def isDigitChar (c : Char) : Bool := decide (48 ≤ c.toNat ∧ c.toNat ≤ 57)

/-- Leftmost match of `/parse error on line (\d+)/` over an already
lower-cased string, returning the captured digit run. -/
def findParseErrorLine : List Char → Option (List Char)
  | [] => none
  | c :: rest =>
    if "parse error on line ".data.isPrefixOf (c :: rest) then
      let ds := ((c :: rest).drop 20).takeWhile isDigitChar
      if ds.isEmpty then findParseErrorLine rest else some ds
    else findParseErrorLine rest

/-- `parseErrorMessage` of errorHandler.ts: try the three diagnostic patterns
in order (case-insensitively), fall back to a generic summary. -/
def parseErrorMessage (e : JsError) : ParsedError :=
  let orig := errorToString e
  let lower := jsToLowerStr orig.data
  match findParseErrorLine lower with
  | some ds =>
      { userMessage := "Failed to render diagram",
        details := some ("Syntax error on line " ++ String.mk ds),
        originalError := orig }
  | none =>
      if jsIncludes lower "unknown diagram type".data then
        { userMessage := "Failed to render diagram",
          details := some "Unsupported diagram type",
          originalError := orig }
      else if jsIncludes lower "syntax error in text".data then
        { userMessage := "Failed to render diagram",
          details := some "Syntax error in diagram",
          originalError := orig }
      else
        { userMessage := "Failed to render diagram",
          details := none,
          originalError := orig }

/-- `createErrorElement` of errorHandler.ts: title, optional details
(hidden when absent) and hint, inside a `div.mpr-error`. -/
def createErrorElement (p : ParsedError) : Dom :=
  Dom.elem { tag := "div", classes := ["mpr-error"], attrs := [], display := none }
    (DomList.cons
      (Dom.elem { tag := "div", classes := ["mpr-error-title"], attrs := [], display := none }
        (DomList.cons (Dom.text p.userMessage.data) DomList.nil))
    (DomList.cons
      (match p.details with
       | some d =>
           Dom.elem { tag := "div", classes := ["mpr-error-details"], attrs := [], display := none }
             (DomList.cons (Dom.text d.data) DomList.nil)
       | none =>
           Dom.elem { tag := "div", classes := ["mpr-error-details"], attrs := [], display := some "none" }
             DomList.nil)
    (DomList.cons
      (Dom.elem { tag := "div", classes := ["mpr-error-hint"], attrs := [], display := none }
        (DomList.cons (Dom.text "Check the source code below".data) DomList.nil))
      DomList.nil)))

/-! ## toggle.ts -/

/-- The state the toggle button owns together with the display styles it sets
on the two regions it is bound to. -/
structure ToggleState where
  showingSource : Bool
  sourceDisplay : Option String
  renderedDisplay : Option String
  btnText : String
  btnTitle : String
deriving DecidableEq

/-- `createToggleButton` of toggle.ts: when `initialShowSource` is set (the
render-failure policy) BOTH regions get `display:block` ("Show both error and
source"); otherwise the regions' styles are left untouched. -/
def createToggleButton (sourceDisplay renderedDisplay : Option String)
    (initialShowSource : Bool) : ToggleState :=
  if initialShowSource then
    { showingSource := true, sourceDisplay := some "block", renderedDisplay := some "block",
      btnText := "▶", btnTitle := "Show diagram" }
  else
    { showingSource := false, sourceDisplay := sourceDisplay, renderedDisplay := renderedDisplay,
      btnText := "\x7b \x7d", btnTitle := "Show source code" }

/-- The click listener of `createToggleButton`: flip the flag, then set the
two display styles to mutually exclusive values. -/
def clickToggle (t : ToggleState) : ToggleState :=
  if ! t.showingSource then
    { showingSource := true, sourceDisplay := some "block", renderedDisplay := some "none",
      btnText := "▶", btnTitle := "Show diagram" }
  else
    { showingSource := false, sourceDisplay := some "none", renderedDisplay := some "block",
      btnText := "\x7b \x7d", btnTitle := "Show source code" }

/-- A region whose inline display style is not `none` is visible (`pre` and
`div` default to block display). -/
def visibleDisp (d : Option String) : Bool := ! (d == some "none")

/-- Exactly one of the two regions a toggle owns is visible. -/
def mutuallyExclusiveVis (t : ToggleState) : Bool :=
  visibleDisp t.sourceDisplay ^^ visibleDisp t.renderedDisplay

/-- The button element as it sits in the committed artifact. -/
def toggleButtonDom (t : ToggleState) : Dom :=
  Dom.elem { tag := "button", classes := ["mpr-toggle"],
             attrs := [("aria-label", "Toggle between source code and diagram")],
             display := none }
    (DomList.cons (Dom.text t.btnText.data) DomList.nil)

/-! ## renderer.ts: pure helpers -/

/-- The pieces `createPreservingWrapper` returns: the container's own data and
the two region nodes it initially contains (children `[sourceWrapper,
renderedDiv]`; the toggle button is appended later). -/
structure WrapperParts where
  containerData : ElemData
  sourceWrapper : Dom
  renderedDivData : ElemData
deriving DecidableEq

/-- `createPreservingWrapper` of renderer.ts: a `div.mpr-container` marked
processed, holding a hidden `pre.mpr-source` whose `code.language-mermaid`
child carries the untouched source text, and an empty `div.mpr-rendered`. -/
def createPreservingWrapper (sourceCode : List Char) : WrapperParts :=
  { containerData :=
      { tag := "div", classes := ["mpr-container"],
        attrs := [("data-mpr-processed", "true")], display := none },
    sourceWrapper :=
      Dom.elem { tag := "pre", classes := ["mpr-source"], attrs := [], display := some "none" }
        (DomList.cons
          (Dom.elem { tag := "code", classes := ["language-mermaid"], attrs := [], display := none }
            (DomList.cons (Dom.text sourceCode) DomList.nil))
          DomList.nil),
    renderedDivData :=
      { tag := "div", classes := ["mpr-rendered"], attrs := [], display := none } }

/-- A candidate element as the engine receives it: the node and its
`parentElement` (none for a detached or parentless node). -/
structure Candidate where
  node : Dom
  parent : Option Dom
deriving DecidableEq

mutual
/-- `element.querySelector('pre code')` within a candidate's subtree: first
descendant `code` element that has a `pre` ancestor on the path. -/
def findPreCodeD (underPre : Bool) : Dom → Option (ElemData × DomList)
  | .text _ => none
  | .elem d cs =>
    if underPre && d.tag == "code" then some (d, cs)
    else findPreCodeL (underPre || d.tag == "pre") cs
def findPreCodeL (underPre : Bool) : DomList → Option (ElemData × DomList)
  | .nil => none
  | .cons c rest =>
    match findPreCodeD underPre c with
    | some r => some r
    | none => findPreCodeL underPre rest
end

/-- `extractSourceCode` of renderer.ts: for grok, the nested `pre code`'s
trimmed text; otherwise the candidate's own trimmed text (empty when the
lookup fails). -/
def extractSourceCode (cand : Candidate) (config : PlatformConfig) : List Char :=
  if config.platform = .grok then
    match cand.node with
    | .elem d cs =>
        (match findPreCodeL (d.tag == "pre") cs with
         | some r => jsTrim (textContentL r.2)
         | none => [])
    | .text s => jsTrim s
  else jsTrim (textContentD cand.node)

/-- `getWrapperToReplace` of renderer.ts: the candidate itself for grok,
otherwise `element.parentElement || element`. -/
def getWrapperToReplace (cand : Candidate) (config : PlatformConfig) : Dom :=
  if config.platform = .grok then cand.node
  else
    match cand.parent with
    | some p => p
    | none => cand.node

/-- `classList.add`: append the class unless already present. -/
def classListAdd (d : ElemData) (c : String) : ElemData :=
  if d.classes.contains c then d else { d with classes := d.classes ++ [c] }

def setDisplay (dm : Dom) (v : Option String) : Dom :=
  match dm with
  | .elem d cs => .elem { d with display := v } cs
  | .text s => .text s

def domDisplay (dm : Dom) : Option String :=
  match dm with
  | .elem d _ => d.display
  | .text _ => none

/-- The unique id `mpr-diagram-${++renderCounter}` the engine hands to the
external renderer. -/
def renderIdString (n : Nat) : String := "mpr-diagram-" ++ toString n

/-! ## renderer.ts: error cleanup -/

/-- The union of the four selectors `cleanupMermaidErrorElements` removes:
`#d{id}`, `#{id}`, `[id^="d{id}"]` and `svg[aria-roledescription="error"]#{id}`. -/
def cleanupSelectorMatches (rid : String) (d : ElemData) : Bool :=
  (attrVal d "id" == some ("d" ++ rid)) ||
  (attrVal d "id" == some rid) ||
  (match attrVal d "id" with
   | some i => ("d" ++ rid).data.isPrefixOf i.data
   | none => false) ||
  (d.tag == "svg" && attrVal d "aria-roledescription" == some "error" &&
    attrVal d "id" == some rid)

/-- The removal predicate as the claim words it: id equals the RenderId, or is
prefixed by the marker character `d` followed by the RenderId, or is an
error-role element with that id. -/
def claimCleanupPred (rid : String) (d : ElemData) : Bool :=
  (attrVal d "id" == some rid) ||
  (match attrVal d "id" with
   | some i => ("d" ++ rid).data.isPrefixOf i.data
   | none => false) ||
  (attrVal d "aria-roledescription" == some "error" && attrVal d "id" == some rid)

/-! ## renderer.ts: the transform engine -/

/-- The DOM side effects the engine performs outside the artifact it builds:
the synchronous cleanup call, the cleanup call scheduled after a yield
(`setTimeout(..., 0)`), and the single commit that replaces the wrapper with
the artifact container. -/
inductive Effect where
  | cleanupNow : String → Effect
  | cleanupDeferred : String → Effect
  | replaceWith : Dom → Dom → Effect
deriving DecidableEq

def isCleanupEffect : Effect → Bool
  | .cleanupNow _ => true
  | .cleanupDeferred _ => true
  | .replaceWith _ _ => false

/-- The external renderer service: `render(id, text)` resolves with markup
(already parsed into nodes) or rejects with an opaque failure value. -/
abbrev RenderFn := String → List Char → Except JsError DomList

/-- Injected exceptions for the steps whose DOM primitives can throw
(extraction query, shell construction, toggle attachment, the `replaceWith`
commit); `none` everywhere reproduces the source's normal execution. -/
structure FaultOracles where
  extractFault : Option JsError
  shellFault : Option JsError
  toggleFault : Option JsError
  commitFault : Option JsError
deriving DecidableEq

def noFaults : FaultOracles := ⟨none, none, none, none⟩

/-- The body of `renderMermaidBlock` (everything inside the outer `try`):
extract, build the shell, delegate rendering (with the inner error recovery:
two cleanup calls keyed by the RenderId, the structured error presentation and
the error-state marker class), attach the toggle, commit.  An uncaught
exception is an `error` carrying the effects already performed and the
counter value at the throw. -/
def renderMermaidBlockBody (f : FaultOracles) (render : RenderFn) (cand : Candidate)
    (config : PlatformConfig) (counter : Nat) :
    Except (JsError × List Effect × Nat) (Option Dom × List Effect × Nat) :=
  match f.extractFault with
  | some e => .error (e, [], counter)
  | none =>
  let sourceCode := extractSourceCode cand config
  if sourceCode.isEmpty then .ok (none, [], counter)
  else
  match f.shellFault with
  | some e => .error (e, [], counter)
  | none =>
  let parts := createPreservingWrapper sourceCode
  let counter1 := counter + 1
  let uniqueId := renderIdString counter1
  let step3 : Bool × List Effect × Dom :=
    match render uniqueId sourceCode with
    | .ok svgNodes => (false, [], Dom.elem parts.renderedDivData svgNodes)
    | .error err =>
        (true, [Effect.cleanupNow uniqueId, Effect.cleanupDeferred uniqueId],
         Dom.elem (classListAdd parts.renderedDivData "mpr-error-container")
           (DomList.cons (createErrorElement (parseErrorMessage err)) DomList.nil))
  let hasError := step3.1
  let effs := step3.2.1
  let renderedDiv := step3.2.2
  match f.toggleFault with
  | some e => .error (e, effs, counter1)
  | none =>
  let tog := createToggleButton (domDisplay parts.sourceWrapper) (domDisplay renderedDiv) hasError
  let sourceWrapper1 := setDisplay parts.sourceWrapper tog.sourceDisplay
  let renderedDiv1 := setDisplay renderedDiv tog.renderedDisplay
  let container := Dom.elem parts.containerData
    (DomList.cons sourceWrapper1 (DomList.cons renderedDiv1
      (DomList.cons (toggleButtonDom tog) DomList.nil)))
  match f.commitFault with
  | some e => .error (e, effs, counter1)
  | none =>
    .ok (some container,
         effs ++ [Effect.replaceWith (getWrapperToReplace cand config) container],
         counter1)

/-- `renderMermaidBlock` with fault injection: the outer `catch` turns any
escaped exception into "no artifact for this candidate". -/
def renderMermaidBlockE (f : FaultOracles) (render : RenderFn) (cand : Candidate)
    (config : PlatformConfig) (counter : Nat) : Option Dom × List Effect × Nat :=
  match renderMermaidBlockBody f render cand config counter with
  | .ok v => v
  | .error r => (none, r.2.1, r.2.2)

/-- `renderMermaidBlock` of renderer.ts under normal execution. -/
def renderMermaidBlock (render : RenderFn) (cand : Candidate)
    (config : PlatformConfig) (counter : Nat) : Option Dom × List Effect × Nat :=
  renderMermaidBlockE noFaults render cand config counter

/-- One sweep of `processExistingBlocks`: each discovered candidate is handed
to the engine with its own render oracle and its own injected faults; the
shared render counter is threaded through in dispatch order. -/
def processExistingBlocksE (l : List (FaultOracles × RenderFn × Candidate))
    (config : PlatformConfig) (counter : Nat) : List (Option Dom) × Nat :=
  match l with
  | [] => ([], counter)
  | (f, r, cand) :: rest =>
    let out := renderMermaidBlockE f r cand config counter
    let next := processExistingBlocksE rest config out.2.2
    (out.1 :: next.1, next.2)

/-- The render counter's value when the candidate at position `i` of a sweep
is dispatched. -/
def counterBeforeE (l : List (FaultOracles × RenderFn × Candidate))
    (config : PlatformConfig) (counter : Nat) (i : Nat) : Nat :=
  (processExistingBlocksE (l.take i) config counter).2

/-! ## renderer.ts: the observation loop -/

/-- Event-loop history the observation model replays: a delivery of a batch of
mutation records to the `MutationObserver` callback, or an animation frame. -/
inductive PageEvent where
  | mutationBatch
  | frame
deriving DecidableEq

/-- `setupMutationObserver` as scheduled by the host event loop: every
observer invocation runs `requestAnimationFrame(sweep)`, enqueueing one sweep
callback; an animation frame runs every callback queued since the previous
frame.  The result lists, per frame, how many full discover-and-process
sweeps that frame ran. -/
def sweepsAtFrames : Nat → List PageEvent → List Nat
  | _, [] => []
  | pending, .mutationBatch :: rest => sweepsAtFrames (pending + 1) rest
  | pending, .frame :: rest => pending :: sweepsAtFrames 0 rest

def setupMutationObserverSweeps (events : List PageEvent) : List Nat :=
  sweepsAtFrames 0 events

/-! ## The earlier renderer version (pure helpers shared with the current one) -/

namespace LegacyRenderer

/-- `createPreservingWrapper` as the earlier renderer version defines it. -/
def createPreservingWrapper (sourceCode : List Char) : WrapperParts :=
  { containerData :=
      { tag := "div", classes := ["mpr-container"],
        attrs := [("data-mpr-processed", "true")], display := none },
    sourceWrapper :=
      Dom.elem { tag := "pre", classes := ["mpr-source"], attrs := [], display := some "none" }
        (DomList.cons
          (Dom.elem { tag := "code", classes := ["language-mermaid"], attrs := [], display := none }
            (DomList.cons (Dom.text sourceCode) DomList.nil))
          DomList.nil),
    renderedDivData :=
      { tag := "div", classes := ["mpr-rendered"], attrs := [], display := none } }

/-- `extractSourceCode` as the earlier renderer version defines it. -/
def extractSourceCode (cand : Candidate) (config : PlatformConfig) : List Char :=
  if config.platform = .grok then
    match cand.node with
    | .elem d cs =>
        (match findPreCodeL (d.tag == "pre") cs with
         | some r => jsTrim (textContentL r.2)
         | none => [])
    | .text s => jsTrim s
  else jsTrim (textContentD cand.node)

/-- `getWrapperToReplace` as the earlier renderer version defines it. -/
def getWrapperToReplace (cand : Candidate) (config : PlatformConfig) : Dom :=
  if config.platform = .grok then cand.node
  else
    match cand.parent with
    | some p => p
    | none => cand.node

end LegacyRenderer

/-! ## Observation helpers over committed artifacts -/

/-- The text carried by the `code.language-mermaid` child of the first
`pre.mpr-source` region among an artifact's children. -/
def sourceRegionText (c : Dom) : Option (List Char) :=
  match c with
  | .elem _ (DomList.cons sw _) =>
    (match sw with
     | .elem pd pcs =>
       if pd.tag == "pre" && pd.classes.contains "mpr-source" then
         (match pcs with
          | DomList.cons (.elem cd ccs) _ =>
            if cd.tag == "code" && cd.classes.contains "language-mermaid" then
              some (textContentL ccs)
            else none
          | _ => none)
       else none
     | _ => none)
  | _ => none

/-- Whether the artifact's source region carries `display:none`. -/
def sourceRegionHidden (c : Dom) : Bool :=
  match c with
  | .elem _ (DomList.cons (.elem pd _) _) =>
      pd.tag == "pre" && pd.classes.contains "mpr-source" && pd.display == some "none"
  | _ => false

/-- The artifact's display region (its second child). -/
def displayRegion (c : Dom) : Option Dom :=
  match c with
  | .elem _ (DomList.cons _ (DomList.cons rd _)) => some rd
  | _ => none

/-! ## Concrete fixtures used by the closed check theorems -/

def sampleCodeData : ElemData :=
  { tag := "code", classes := ["language-mermaid"], attrs := [], display := none }

def samplePreData : ElemData := { tag := "pre", classes := [], attrs := [], display := none }

def sampleBodyData : ElemData := { tag := "body", classes := [], attrs := [], display := none }

def sampleCodeChildren : DomList := DomList.cons (Dom.text "graph TD".data) DomList.nil

def sampleCodeElem : Dom := Dom.elem sampleCodeData sampleCodeChildren

def samplePre : Dom := Dom.elem samplePreData (DomList.cons sampleCodeElem DomList.nil)

def sampleDoc : Dom := Dom.elem sampleBodyData (DomList.cons samplePre DomList.nil)

def sampleCtx : Ctx := (sampleCodeData, sampleCodeChildren, [samplePreData, sampleBodyData])

def sampleConfig : PlatformConfig :=
  { platform := .chatgpt, detection := .className,
    codeBlockSel := fun d _ => d.tag == "code",
    wrapperSel := fun d _ => d.tag == "pre",
    languageLabelSel := fun _ => false }

def sampleGrokConfig : PlatformConfig :=
  { sampleConfig with platform := .grok, detection := .languageLabel }

def sampleCandidate : Candidate := { node := sampleCodeElem, parent := some samplePre }

def sampleNoParent : Candidate := { node := sampleCodeElem, parent := none }

def sampleOkRender : RenderFn :=
  fun _ _ => .ok (DomList.cons (Dom.text "svg".data) DomList.nil)

def sampleFailRender : RenderFn := fun _ _ => .error (.jsError "Parse error on line 2")

def sampleCommitFault : FaultOracles :=
  { extractFault := none, shellFault := none, toggleFault := none,
    commitFault := some (.jsError "DOM exception") }

/-! # Theorems -/

/-- C9: the earlier and the current renderer implementations agree on their
shared pure helpers: `createPreservingWrapper`, `extractSourceCode` and
`getWrapperToReplace` return identical results in both versions on every
input. -/
theorem renderer_versions_agree :
    (∀ s, LegacyRenderer.createPreservingWrapper s = createPreservingWrapper s) ∧
    (∀ cand config, LegacyRenderer.extractSourceCode cand config =
      extractSourceCode cand config) ∧
    (∀ cand config, LegacyRenderer.getWrapperToReplace cand config =
      getWrapperToReplace cand config) :=
  ⟨fun _ => rfl, fun _ _ => rfl, fun _ _ => rfl⟩

/-- C10: `getWrapperToReplace` is total and never null: for the grok
(AdjacentLabel) configuration it returns the candidate itself; otherwise the
candidate's parent element when one exists, and the candidate itself when
there is none. -/
theorem getWrapperToReplace_total (cand : Candidate) (config : PlatformConfig) :
    (config.platform = .grok → getWrapperToReplace cand config = cand.node) ∧
    (config.platform ≠ .grok → ∀ p, cand.parent = some p →
      getWrapperToReplace cand config = p) ∧
    (config.platform ≠ .grok → cand.parent = none →
      getWrapperToReplace cand config = cand.node) := by
  refine ⟨fun h => by simp [getWrapperToReplace, h], fun h p hp => ?_, fun h hp => ?_⟩ <;>
    simp [getWrapperToReplace, h, hp]

/-- C10 check: the three cases of `getWrapperToReplace_total` realized on
concrete candidates. -/
theorem getWrapperToReplace_total_check :
    getWrapperToReplace sampleCandidate sampleGrokConfig = sampleCandidate.node ∧
    getWrapperToReplace sampleCandidate sampleConfig = samplePre ∧
    getWrapperToReplace sampleNoParent sampleConfig = sampleNoParent.node :=
  ⟨(getWrapperToReplace_total sampleCandidate sampleGrokConfig).1 rfl,
   (getWrapperToReplace_total sampleCandidate sampleConfig).2.1 (by decide) samplePre rfl,
   (getWrapperToReplace_total sampleNoParent sampleConfig).2.2 (by decide) rfl⟩

/-- C4 counterexample: at construction after a render failure
(`initialShowSource = true`, the source region arriving hidden from the
wrapper) the toggle sets BOTH regions to `display:block`, so the two regions
are not in mutually exclusive visibility states. -/
theorem toggle_error_construction_shows_both :
    mutuallyExclusiveVis (createToggleButton (some "none") none true) = false := by
  decide

/-- C4 (amended): after every click exactly one of the two regions is visible;
at construction with a successful render (`initialShowSource = false`, wrapper
defaults) the source is hidden and the display region visible; at construction
after a render failure the control deliberately shows both regions at once. -/
theorem toggle_visibility_amended :
    (∀ t, mutuallyExclusiveVis (clickToggle t) = true) ∧
    mutuallyExclusiveVis (createToggleButton (some "none") none false) = true ∧
    (∀ s r, visibleDisp (createToggleButton s r true).sourceDisplay = true ∧
      visibleDisp (createToggleButton s r true).renderedDisplay = true) := by
  refine ⟨fun t => ?_, by decide, fun s r => by simp [createToggleButton, visibleDisp]⟩
  cases h : t.showingSource <;>
    simp [clickToggle, h, mutuallyExclusiveVis, visibleDisp]

/-- C5: two mutation-observer invocations delivered before the next animation
frame each enqueue their own `requestAnimationFrame` callback, so that frame
runs two full sweeps — the rescans are not coalesced to at most one sweep per
animation frame. -/
theorem observer_sweeps_not_coalesced :
    setupMutationObserverSweeps
      [PageEvent.mutationBatch, PageEvent.mutationBatch, PageEvent.frame] = [2] ∧
    ∃ k ∈ setupMutationObserverSweeps
      [PageEvent.mutationBatch, PageEvent.mutationBatch, PageEvent.frame], 1 < k := by
  refine ⟨by decide, 2, by decide, by decide⟩

/-- C2: idempotence of discovery — under every platform configuration (any of
the three detection strategies) and any document, an element carrying the
processed marker on itself or on any ancestor is excluded from the sequence
`findUnprocessedMermaidBlocks` returns. -/
theorem findUnprocessed_excludes_processed (config : PlatformConfig) (doc : Dom) (x : Ctx)
    (hx : x ∈ findUnprocessedMermaidBlocks config doc) :
    ((x.1 :: x.2.2).any processedMarked) = false := by
  show closestProcessedMarked x.1 x.2.2 = false
  by_cases h2 : closestProcessedMarked x.1 x.2.2 = true
  · exfalso
    unfold findUnprocessedMermaidBlocks at hx
    cases hdet : config.detection <;> rw [hdet] at hx <;> rw [List.mem_filter] at hx <;>
      have hp := hx.2 <;> rw [h2] at hp <;> simp at hp
  · simpa using h2

/-- C2 check: a fresh, unmarked code block is discovered and indeed carries no
processed marker on itself or any ancestor. -/
theorem findUnprocessed_excludes_processed_check :
    ((sampleCtx.1 :: sampleCtx.2.2).any processedMarked) = false :=
  findUnprocessed_excludes_processed sampleConfig sampleDoc sampleCtx (by decide)

/-- `detectPlatform` as a nested conditional over the four registry rows. -/
theorem detectPlatform_eval (h : List Char) :
    detectPlatform h =
      (if "chatgpt.com".data <:+: h then some Platform.chatgpt
       else if "claude.ai".data <:+: h then some Platform.claude
       else if "gemini.google.com".data <:+: h then some Platform.gemini
       else if "grok.com".data <:+: h then some Platform.grok
       else none) := by
  unfold detectPlatform platformEntries jsIncludes
  split_ifs <;> simp_all [List.find?]

/-- C6: platform identification — `detectPlatform` returns a platform exactly
when the hostname contains its registry row's match substring and no
earlier row's substring (first match wins), and returns none exactly when the
hostname contains none of the match substrings. -/
theorem detectPlatform_substring_firstMatch (h : List Char) :
    (detectPlatform h = none ↔ ∀ p, ¬ hostnameMatch p <:+: h) ∧
    (∀ p, detectPlatform h = some p ↔
      (hostnameMatch p <:+: h ∧
        ∀ q, registryIndex q < registryIndex p → ¬ hostnameMatch q <:+: h)) := by
  rw [detectPlatform_eval]
  split_ifs with h1 h2 h3 h4
  · refine ⟨⟨fun hx => (nomatch hx), fun hall => absurd h1 (hall .chatgpt)⟩, ?_⟩
    intro p
    cases p
    · exact ⟨fun _ => ⟨h1, fun q hq => absurd hq (Nat.not_lt_zero _)⟩, fun _ => rfl⟩
    · exact ⟨fun hx => absurd hx (by decide),
        fun hin => absurd h1 (hin.2 .chatgpt (by decide))⟩
    · exact ⟨fun hx => absurd hx (by decide),
        fun hin => absurd h1 (hin.2 .chatgpt (by decide))⟩
    · exact ⟨fun hx => absurd hx (by decide),
        fun hin => absurd h1 (hin.2 .chatgpt (by decide))⟩
  · refine ⟨⟨fun hx => (nomatch hx), fun hall => absurd h2 (hall .claude)⟩, ?_⟩
    intro p
    cases p
    · exact ⟨fun hx => absurd hx (by decide), fun hin => absurd hin.1 h1⟩
    · refine ⟨fun _ => ⟨h2, fun q hq => ?_⟩, fun _ => rfl⟩
      cases q
      · exact h1
      · exact absurd hq (by decide)
      · exact absurd hq (by decide)
      · exact absurd hq (by decide)
    · exact ⟨fun hx => absurd hx (by decide),
        fun hin => absurd h2 (hin.2 .claude (by decide))⟩
    · exact ⟨fun hx => absurd hx (by decide),
        fun hin => absurd h2 (hin.2 .claude (by decide))⟩
  · refine ⟨⟨fun hx => (nomatch hx), fun hall => absurd h3 (hall .gemini)⟩, ?_⟩
    intro p
    cases p
    · exact ⟨fun hx => absurd hx (by decide), fun hin => absurd hin.1 h1⟩
    · exact ⟨fun hx => absurd hx (by decide), fun hin => absurd hin.1 h2⟩
    · refine ⟨fun _ => ⟨h3, fun q hq => ?_⟩, fun _ => rfl⟩
      cases q
      · exact h1
      · exact h2
      · exact absurd hq (by decide)
      · exact absurd hq (by decide)
    · exact ⟨fun hx => absurd hx (by decide),
        fun hin => absurd h3 (hin.2 .gemini (by decide))⟩
  · refine ⟨⟨fun hx => (nomatch hx), fun hall => absurd h4 (hall .grok)⟩, ?_⟩
    intro p
    cases p
    · exact ⟨fun hx => absurd hx (by decide), fun hin => absurd hin.1 h1⟩
    · exact ⟨fun hx => absurd hx (by decide), fun hin => absurd hin.1 h2⟩
    · exact ⟨fun hx => absurd hx (by decide), fun hin => absurd hin.1 h3⟩
    · refine ⟨fun _ => ⟨h4, fun q hq => ?_⟩, fun _ => rfl⟩
      cases q
      · exact h1
      · exact h2
      · exact h3
      · exact absurd hq (by decide)
  · refine ⟨⟨fun _ p => ?_, fun _ => rfl⟩, ?_⟩
    · cases p
      · exact h1
      · exact h2
      · exact h3
      · exact h4
    · intro p
      refine ⟨fun hx => (nomatch hx), fun hin => ?_⟩
      exfalso
      cases p
      · exact absurd hin.1 h1
      · exact absurd hin.1 h2
      · exact absurd hin.1 h3
      · exact absurd hin.1 h4

/-- C6 check: the characterization instantiated at the hostname
`www.claude.ai`. -/
theorem detectPlatform_substring_firstMatch_check :
    (detectPlatform "www.claude.ai".data = none ↔
      ∀ p, ¬ hostnameMatch p <:+: "www.claude.ai".data) ∧
    (∀ p, detectPlatform "www.claude.ai".data = some p ↔
      (hostnameMatch p <:+: "www.claude.ai".data ∧
        ∀ q, registryIndex q < registryIndex p →
          ¬ hostnameMatch q <:+: "www.claude.ai".data)) :=
  detectPlatform_substring_firstMatch "www.claude.ai".data

/-- `jsSplitWs` never returns an empty field list. -/
theorem jsSplitWs_ne_nil (l : List Char) : jsSplitWs l ≠ [] := by
  induction l with
  | nil => simp [jsSplitWs]
  | cons c t ih =>
    simp only [jsSplitWs]
    split
    · simp
    · cases hs : jsSplitWs t with
      | nil => exact absurd hs ih
      | cons a r => simp [splitHeadCons]

/-- The first field of `jsSplitWs` is the longest non-whitespace prefix. -/
theorem headD_jsSplitWs (l : List Char) :
    (jsSplitWs l).headD [] = l.takeWhile (fun c => ! isJsWs c) := by
  induction l with
  | nil => simp [jsSplitWs]
  | cons c t ih =>
    simp only [jsSplitWs, List.takeWhile_cons]
    cases h : isJsWs c with
    | true => simp
    | false =>
      cases hs : jsSplitWs t with
      | nil => exact absurd hs (jsSplitWs_ne_nil t)
      | cons a r =>
        have ha : a = t.takeWhile (fun c => ! isJsWs c) := by simpa [hs] using ih
        simp [splitHeadCons, ha]

/-- `isMermaidContent` characterized through the first whitespace-delimited
token of the trimmed, lower-cased input. -/
theorem isMermaidContent_eq (s : List Char) :
    isMermaidContent s =
      MERMAID_KEYWORDS.contains ((jsToLowerStr (jsTrim s)).takeWhile (fun c => ! isJsWs c)) := by
  show MERMAID_KEYWORDS.contains ((jsSplitWs (jsToLowerStr (jsTrim s))).headD []) = _
  rw [headD_jsSplitWs]

/-- Trimming ignores all-whitespace padding on either side. -/
theorem jsTrim_pad (w1 w2 s : List Char) (hw1 : ∀ c ∈ w1, isJsWs c = true)
    (hw2 : ∀ c ∈ w2, isJsWs c = true) :
    jsTrim (w1 ++ (s ++ w2)) = jsTrim s := by
  unfold jsTrim jsTrimStart jsTrimEnd
  rw [List.dropWhile_append_of_pos hw1, List.dropWhile_append]
  by_cases he : (List.dropWhile isJsWs s).isEmpty
  · rw [if_pos he]
    rw [List.isEmpty_iff] at he
    rw [he, List.dropWhile_eq_nil_iff.mpr hw2]
  · rw [if_neg he, List.reverse_append,
      List.dropWhile_append_of_pos (fun c hc => hw2 c (List.mem_reverse.mp hc))]

theorem charToNat_ofNat_small (m : Nat) (h : m < 55296) : (Char.ofNat m).toNat = m := by
  have hv : m.isValidChar := Or.inl h
  unfold Char.ofNat
  rw [dif_pos hv]
  rfl

theorem isJsWs_jsToUpperChar (c : Char) : isJsWs (jsToUpperChar c) = isJsWs c := by
  unfold jsToUpperChar
  by_cases h : 97 ≤ c.toNat ∧ c.toNat ≤ 122
  · rw [if_pos h]
    have ht : (Char.ofNat (c.toNat - 32)).toNat = c.toNat - 32 :=
      charToNat_ofNat_small _ (by omega)
    unfold isJsWs
    rw [ht, decide_eq_decide]
    omega
  · rw [if_neg h]

theorem jsToLowerChar_jsToUpperChar (c : Char) :
    jsToLowerChar (jsToUpperChar c) = jsToLowerChar c := by
  unfold jsToUpperChar
  by_cases h : 97 ≤ c.toNat ∧ c.toNat ≤ 122
  · rw [if_pos h]
    have ht : (Char.ofNat (c.toNat - 32)).toNat = c.toNat - 32 :=
      charToNat_ofNat_small _ (by omega)
    unfold jsToLowerChar
    rw [ht, if_pos (by omega : 65 ≤ c.toNat - 32 ∧ c.toNat - 32 ≤ 90),
      if_neg (by omega : ¬(65 ≤ c.toNat ∧ c.toNat ≤ 90)),
      Nat.sub_add_cancel (by omega)]
    exact Char.ofNat_toNat c
  · rw [if_neg h]

theorem jsTrim_map_upper (s : List Char) :
    jsTrim (s.map jsToUpperChar) = (jsTrim s).map jsToUpperChar := by
  have hw : isJsWs ∘ jsToUpperChar = isJsWs := funext isJsWs_jsToUpperChar
  unfold jsTrim jsTrimStart jsTrimEnd
  rw [List.dropWhile_map, hw, ← List.map_reverse, List.dropWhile_map, hw, ← List.map_reverse]

theorem isMermaidContent_upper (s : List Char) :
    isMermaidContent (s.map jsToUpperChar) = isMermaidContent s := by
  rw [isMermaidContent_eq, isMermaidContent_eq, jsTrim_map_upper]
  have hl : jsToLowerChar ∘ jsToUpperChar = jsToLowerChar := funext jsToLowerChar_jsToUpperChar
  unfold jsToLowerStr
  rw [List.map_map, hl]

/-- C7: content classification — `isMermaidContent` returns true exactly when
the first whitespace-delimited token of the trimmed, lower-cased input is in
the fixed keyword vocabulary; the result is invariant under leading/trailing
whitespace and under letter case. -/
theorem isMermaidContent_classification :
    (∀ s, isMermaidContent s =
      MERMAID_KEYWORDS.contains ((jsToLowerStr (jsTrim s)).takeWhile (fun c => ! isJsWs c))) ∧
    (∀ w1 w2 s, (∀ c ∈ w1, isJsWs c = true) → (∀ c ∈ w2, isJsWs c = true) →
      isMermaidContent (w1 ++ s ++ w2) = isMermaidContent s) ∧
    (∀ s, isMermaidContent (s.map jsToUpperChar) = isMermaidContent s) := by
  refine ⟨isMermaidContent_eq, fun w1 w2 s hw1 hw2 => ?_, isMermaidContent_upper⟩
  rw [List.append_assoc]
  simp only [isMermaidContent]
  rw [jsTrim_pad w1 w2 s hw1 hw2]

/-- C7 check: the invariance applied to a concretely padded, mixed-case
input. -/
theorem isMermaidContent_classification_check :
    isMermaidContent (" ".data ++ "Graph TD".data ++ "\n".data) =
      isMermaidContent "Graph TD".data :=
  isMermaidContent_classification.2.1 " ".data "\n".data "Graph TD".data
    (by decide) (by decide)

/-- C1: round-trip source preservation — whenever the extracted (trimmed)
source text is non-empty, the committed artifact holds, in its source region,
a `code` element carrying the `language-mermaid` marker class whose text
equals the extracted text exactly, and that region carries `display:none`
whenever the render succeeded; when the extracted text is empty the engine
produces no artifact and performs no DOM effect. -/
theorem roundtrip_source_preservation (render : RenderFn) (cand : Candidate)
    (config : PlatformConfig) (n : Nat) :
    (extractSourceCode cand config = [] →
      renderMermaidBlock render cand config n = (none, [], n)) ∧
    (extractSourceCode cand config ≠ [] →
      ∃ c effs, renderMermaidBlock render cand config n = (some c, effs, n + 1) ∧
        Effect.replaceWith (getWrapperToReplace cand config) c ∈ effs ∧
        sourceRegionText c = some (extractSourceCode cand config) ∧
        (∀ svg, render (renderIdString (n + 1)) (extractSourceCode cand config) = .ok svg →
          sourceRegionHidden c = true)) := by
  constructor
  · intro h
    have he : (extractSourceCode cand config).isEmpty = true := by simp [h]
    simp [renderMermaidBlock, renderMermaidBlockE, renderMermaidBlockBody, noFaults, he]
  · intro h
    have he : (extractSourceCode cand config).isEmpty = false := by simpa using h
    have hmain : renderMermaidBlock render cand config n =
        renderMermaidBlock render cand config n := rfl
    cases hr : render (renderIdString (n + 1)) (extractSourceCode cand config) with
    | ok svg =>
      conv at hmain =>
        rhs
        simp [renderMermaidBlock, renderMermaidBlockE, renderMermaidBlockBody, noFaults, he, hr]
      refine ⟨_, _, hmain, ?_, ?_, ?_⟩
      · simp
      · simp [sourceRegionText, createPreservingWrapper, setDisplay, createToggleButton,
          domDisplay, textContentL, textContentD]
      · intro svg2 _
        simp [sourceRegionHidden, createPreservingWrapper, setDisplay, createToggleButton,
          domDisplay]
    | error e =>
      conv at hmain =>
        rhs
        simp [renderMermaidBlock, renderMermaidBlockE, renderMermaidBlockBody, noFaults, he, hr]
      refine ⟨_, _, hmain, ?_, ?_, ?_⟩
      · simp
      · simp [sourceRegionText, createPreservingWrapper, setDisplay, createToggleButton,
          domDisplay, textContentL, textContentD]
      · intro svg2 hsvg
        exact absurd hsvg (by simp)

/-- C1 check: the round trip realized for a concrete candidate holding
`graph TD` under a successful render. -/
theorem roundtrip_source_preservation_check :
    ∃ c effs, renderMermaidBlock sampleOkRender sampleCandidate sampleConfig 0 =
        (some c, effs, 1) ∧
      Effect.replaceWith (getWrapperToReplace sampleCandidate sampleConfig) c ∈ effs ∧
      sourceRegionText c = some (extractSourceCode sampleCandidate sampleConfig) ∧
      (∀ svg, sampleOkRender (renderIdString 1)
          (extractSourceCode sampleCandidate sampleConfig) = .ok svg →
        sourceRegionHidden c = true) :=
  (roundtrip_source_preservation sampleOkRender sampleCandidate sampleConfig 0).2 (by decide)

/-- C3: on render failure the engine performs exactly two cleanup invocations
keyed by the candidate's RenderId — one synchronous, one deferred past a yield
— whose removal predicate matches precisely the elements whose id equals the
RenderId, is prefixed by `d` followed by the RenderId, or is an error-role
element with that id; and the display region holds the structured error
presentation and the dedicated error-state marker class. -/
theorem renderFailure_cleanup_twice :
    (∀ rid d, cleanupSelectorMatches rid d = claimCleanupPred rid d) ∧
    (∀ render cand config n e,
      extractSourceCode cand config ≠ [] →
      render (renderIdString (n + 1)) (extractSourceCode cand config) = .error e →
      ((renderMermaidBlock render cand config n).2.1.filter isCleanupEffect =
        [Effect.cleanupNow (renderIdString (n + 1)),
         Effect.cleanupDeferred (renderIdString (n + 1))]) ∧
      (∃ c, (renderMermaidBlock render cand config n).1 = some c ∧
        displayRegion c =
          some (Dom.elem { tag := "div", classes := ["mpr-rendered", "mpr-error-container"],
                           attrs := [], display := some "block" }
            (DomList.cons (createErrorElement (parseErrorMessage e)) DomList.nil)))) := by
  constructor
  · intro rid d
    cases hid : attrVal d "id" with
    | none => simp [cleanupSelectorMatches, claimCleanupPred, hid]
    | some i =>
      simp only [cleanupSelectorMatches, claimCleanupPred, hid]
      by_cases heq : i = "d" ++ rid
      · have hp : ("d" ++ rid).data.isPrefixOf ("d" ++ rid).data = true :=
          List.isPrefixOf_iff_prefix.mpr (List.prefix_refl _)
        simp [heq, hp]
      · have h1 : (i == "d" ++ rid) = false := beq_eq_false_iff_ne.mpr heq
        by_cases hb : i = rid
        · simp [h1, hb]
        · have h2 : (i == rid) = false := beq_eq_false_iff_ne.mpr hb
          simp [h1, h2]
  · intro render cand config n e h hr
    have he : (extractSourceCode cand config).isEmpty = false := by simpa using h
    have hmain : renderMermaidBlock render cand config n =
        renderMermaidBlock render cand config n := rfl
    conv at hmain =>
      rhs
      simp [renderMermaidBlock, renderMermaidBlockE, renderMermaidBlockBody, noFaults, he, hr]
    rw [hmain]
    constructor
    · simp [isCleanupEffect]
    · refine ⟨_, rfl, ?_⟩
      simp [displayRegion, createPreservingWrapper, setDisplay, createToggleButton,
        classListAdd, domDisplay]

/-- C3 check: the failure path realized for a concrete candidate whose render
oracle rejects with a parse error. -/
theorem renderFailure_cleanup_twice_check :
    ((renderMermaidBlock sampleFailRender sampleCandidate sampleConfig 0).2.1.filter
        isCleanupEffect =
      [Effect.cleanupNow (renderIdString 1), Effect.cleanupDeferred (renderIdString 1)]) ∧
    (∃ c, (renderMermaidBlock sampleFailRender sampleCandidate sampleConfig 0).1 = some c ∧
      displayRegion c =
        some (Dom.elem { tag := "div", classes := ["mpr-rendered", "mpr-error-container"],
                         attrs := [], display := some "block" }
          (DomList.cons
            (createErrorElement (parseErrorMessage (.jsError "Parse error on line 2")))
            DomList.nil))) :=
  renderFailure_cleanup_twice.2 sampleFailRender sampleCandidate sampleConfig 0
    (.jsError "Parse error on line 2") (by decide) rfl

theorem counterBeforeE_zero (l : List (FaultOracles × RenderFn × Candidate))
    (config : PlatformConfig) (n : Nat) : counterBeforeE l config n 0 = n := by
  simp [counterBeforeE, processExistingBlocksE]

theorem counterBeforeE_succ (x : FaultOracles × RenderFn × Candidate)
    (l : List (FaultOracles × RenderFn × Candidate)) (config : PlatformConfig)
    (n i : Nat) :
    counterBeforeE (x :: l) config n (i + 1) =
      counterBeforeE l config (renderMermaidBlockE x.1 x.2.1 x.2.2 config n).2.2 i := by
  simp [counterBeforeE, processExistingBlocksE, List.take]

/-- C8: per-candidate failure containment — an exception escaping the body of
`renderMermaidBlock` is caught at the per-candidate boundary (the candidate
yields no artifact), the sweep still processes every candidate, and each
candidate's outcome is exactly its own processing, unaffected by the faults
injected into the others. -/
theorem perCandidate_failure_containment :
    (∀ f render cand config n e effs n2,
      renderMermaidBlockBody f render cand config n = .error (e, effs, n2) →
      renderMermaidBlockE f render cand config n = (none, effs, n2)) ∧
    (∀ l config n, (processExistingBlocksE l config n).1.length = l.length) ∧
    (∀ l config n i, (processExistingBlocksE l config n).1.get? i =
      (l.get? i).map (fun t =>
        (renderMermaidBlockE t.1 t.2.1 t.2.2 config (counterBeforeE l config n i)).1)) := by
  refine ⟨?_, ?_, ?_⟩
  · intro f render cand config n e effs n2 hb
    simp [renderMermaidBlockE, hb]
  · intro l config n
    induction l generalizing n with
    | nil => simp [processExistingBlocksE]
    | cons x rest ih => simp [processExistingBlocksE, ih]
  · intro l config n i
    induction l generalizing n i with
    | nil => simp [processExistingBlocksE]
    | cons x rest ih =>
      cases i with
      | zero => simp [processExistingBlocksE, counterBeforeE_zero]
      | succ j =>
        have hstep := ih (renderMermaidBlockE x.1 x.2.1 x.2.2 config n).2.2 j
        simpa [processExistingBlocksE, counterBeforeE_succ] using hstep

/-- C8 check: a commit-time exception is caught — the candidate produces no
artifact while the engine state stays consistent. -/
theorem perCandidate_failure_containment_check :
    renderMermaidBlockE sampleCommitFault sampleOkRender sampleCandidate sampleConfig 0 =
      (none, [], 1) :=
  perCandidate_failure_containment.1 sampleCommitFault sampleOkRender sampleCandidate
    sampleConfig 0 (.jsError "DOM exception") [] 1 rfl
